import Mathlib

/-!
Shallow embedding of the "Break Timer" store (src/src/App.tsx): the Timer
record, the persisted snapshot, and the state transitions performed by the
React component App (load, tick, persist, addTimer, toggleSelect,
removeTimer, removeSelected, startSelected, startAll, pauseSelected,
pauseAll, resetSelected, and the per-item start/pause toggle button).

Times are epoch milliseconds modelled as `Int` (JavaScript `Date.now()`
values and their differences). Collections are `List Timer`, matching the
`Timer[]` state array.
-/

namespace BreakTimer

/-- The `Timer` record (App.tsx lines 3-10). -/
structure Timer where
  id : String
  name : String
  durationMs : Int
  remainingMs : Int
  isRunning : Bool
  isSelected : Bool
deriving DecidableEq, Repr

/-- The `PersistedState` snapshot (App.tsx lines 12-15). -/
structure PersistedState where
  timers : List Timer
  lastUpdatedMs : Int
deriving DecidableEq, Repr

/-- The whitespace class of JavaScript `String.prototype.trim` (modelled on
its ASCII part: space, tab, line feed, vertical tab, form feed, carriage
return). -/
def isJsWhitespace (c : Char) : Bool :=
  c = ' ' || c = '\t' || c = '\n' || c = '\x0b' || c = '\x0c' || c = '\r'

/-- JavaScript `String.prototype.trim`: strip leading and trailing
whitespace. Defined by structural recursion over the character list. -/
def jsTrim (s : String) : String :=
  String.mk (((s.data.dropWhile isJsWhitespace).reverse.dropWhile isJsWhitespace).reverse)

/-- One timer's adjustment in the load effect (App.tsx lines 96-100):
`if (!timer.isRunning || timer.remainingMs <= 0) return timer;` else
clamp-subtract the elapsed time and recompute `isRunning`. -/
def loadAdjustTimer (elapsed : Int) (t : Timer) : Timer :=
  if t.isRunning = false ∨ t.remainingMs ≤ 0 then t
  else
    let remainingMs := max 0 (t.remainingMs - elapsed)
    { t with remainingMs := remainingMs, isRunning := decide (0 < remainingMs) }

/-- The load effect's reconciliation of a parsed snapshot at instant `now`
(App.tsx lines 95-101): `elapsed = Math.max(0, Date.now() - parsed.lastUpdatedMs)`
followed by the `adjusted` map. -/
def loadAdjusted (s : PersistedState) (now : Int) : List Timer :=
  let elapsed := max 0 (now - s.lastUpdatedMs)
  s.timers.map (loadAdjustTimer elapsed)

/-- Outcome of reading the storage key at startup: the key is absent, the
raw string fails `JSON.parse`, or it parses to a snapshot. -/
inductive ReadOutcome where
  | missing
  | unparseable
  | parsed (s : PersistedState)
deriving DecidableEq, Repr

/-- The whole load effect (App.tsx lines 90-107) as a function of the read
outcome and the current instant, returning the resulting timer collection
together with whether a `console.error` was emitted. A missing key returns
early keeping the initial empty state (no log); a parse throw is caught and
logged, keeping the initial empty state; a parsed snapshot is reconciled. -/
def loadEffect (o : ReadOutcome) (now : Int) : List Timer × Bool :=
  match o with
  | .missing => ([], false)
  | .unparseable => ([], true)
  | .parsed s => (loadAdjusted s now, false)

/-- One timer's update in the tick interval callback (App.tsx lines 116-129),
where `delta = now - lastTickRef.current` (not clamped at zero). -/
def tickTimer (delta : Int) (t : Timer) : Timer :=
  if t.isRunning = false ∨ t.remainingMs ≤ 0 then
    if t.remainingMs ≤ 0 ∧ t.isRunning = true then
      { t with remainingMs := 0, isRunning := false }
    else t
  else
    let remainingMs := max 0 (t.remainingMs - delta)
    { t with remainingMs := remainingMs, isRunning := decide (0 < remainingMs) }

/-- The tick interval callback's collection update (App.tsx lines 115-130). -/
def tickTimers (ts : List Timer) (delta : Int) : List Timer :=
  ts.map (tickTimer delta)

/-- The persist effect's payload (App.tsx lines 138-141): the current
collection plus the current instant as `lastUpdatedMs`. -/
def persistPayload (ts : List Timer) (now : Int) : PersistedState :=
  { timers := ts, lastUpdatedMs := now }

/-- The handler addTimer (App.tsx lines 149-165): trims the name, silently no-ops when
the trimmed name is empty, otherwise appends one new timer with
`durationMs = max(1, durationMinutes) * 60 * 1000`, full remaining time, not
running, not selected. The fresh id comes from the identifier source
(`crypto.randomUUID`), passed here as a parameter. -/
def addTimer (nameInput : String) (durationMinutes : Int) (id : String)
    (prev : List Timer) : List Timer :=
  let cleanName := jsTrim nameInput
  if cleanName = "" then prev
  else
    let durationMs := max 1 durationMinutes * 60 * 1000
    prev ++ [{ id := id, name := cleanName, durationMs := durationMs,
               remainingMs := durationMs, isRunning := false, isSelected := false }]

/-- The handler toggleSelect (App.tsx lines 167-173). -/
def toggleSelect (id : String) (prev : List Timer) : List Timer :=
  prev.map fun t => if t.id = id then { t with isSelected := !t.isSelected } else t

/-- The handler removeTimer (App.tsx lines 175-177). -/
def removeTimer (id : String) (prev : List Timer) : List Timer :=
  prev.filter fun t => t.id != id

/-- The handler removeSelected (App.tsx lines 179-181). -/
def removeSelected (prev : List Timer) : List Timer :=
  prev.filter fun t => !t.isSelected

/-- The handler startSelected (App.tsx lines 183-192); it also resets
`lastTickRef.current` to the current instant, tracked separately where the
baseline matters. -/
def startSelected (prev : List Timer) : List Timer :=
  prev.map fun t =>
    if t.isSelected = true ∧ 0 < t.remainingMs then { t with isRunning := true } else t

/-- The handler startAll (App.tsx lines 194-201); also resets the tick baseline. -/
def startAll (prev : List Timer) : List Timer :=
  prev.map fun t => if 0 < t.remainingMs then { t with isRunning := true } else t

/-- The handler pauseSelected (App.tsx lines 203-209). -/
def pauseSelected (prev : List Timer) : List Timer :=
  prev.map fun t => if t.isSelected = true then { t with isRunning := false } else t

/-- The handler pauseAll (App.tsx lines 211-213). -/
def pauseAll (prev : List Timer) : List Timer :=
  prev.map fun t => { t with isRunning := false }

/-- The handler resetSelected (App.tsx lines 215-227). -/
def resetSelected (prev : List Timer) : List Timer :=
  prev.map fun t =>
    if t.isSelected = true then { t with remainingMs := t.durationMs, isRunning := false }
    else t

/-- The per-item start/pause button's raw onClick handler (App.tsx lines
330-338): flips `isRunning` of the timer with the clicked card's id. -/
def toggleRunning (id : String) (prev : List Timer) : List Timer :=
  prev.map fun t => if t.id = id then { t with isRunning := !t.isRunning } else t

/-- The per-item start/pause click as the UI exposes it: the button carries
`disabled={timer.remainingMs <= 0}` (App.tsx line 339), so a click on a
timer at zero produces no state change; otherwise the handler flips that
timer's `isRunning`. -/
def clickStartPause (timer : Timer) (prev : List Timer) : List Timer :=
  if timer.remainingMs ≤ 0 then prev else toggleRunning timer.id prev

/-- The per-timer invariant `0 <= remainingMs <= durationMs`. -/
def TimerInv (t : Timer) : Prop :=
  0 ≤ t.remainingMs ∧ t.remainingMs ≤ t.durationMs

instance (t : Timer) : Decidable (TimerInv t) := by
  unfold TimerInv; infer_instance

/-- The invariant over a whole collection. -/
def CollectionInv (ts : List Timer) : Prop :=
  ∀ t ∈ ts, TimerInv t

instance (ts : List Timer) : Decidable (CollectionInv ts) := by
  unfold CollectionInv; infer_instance

/-- The id, name and durationMs fields, which no operation other than create
and remove may change. -/
def keyFields (t : Timer) : String × String × Int :=
  (t.id, t.name, t.durationMs)

/-- States `(timers, lastTick)` reachable through the store's operations,
starting from the empty collection at mount, each step taken at some current
instant supplied by the wall clock. `lastTick` is `lastTickRef.current`:
set at mount, reset by load, startSelected and startAll, and advanced by
every tick. -/
inductive Reachable : List Timer → Int → Prop where
  | init (t0 : Int) : Reachable [] t0
  | load (o : ReadOutcome) (now t0 : Int) : Reachable (loadEffect o now).1 now
  | create (name : String) (m : Int) (id : String) {ts : List Timer} {lt : Int} :
      Reachable ts lt → Reachable (addTimer name m id ts) lt
  | toggleSel (id : String) {ts : List Timer} {lt : Int} :
      Reachable ts lt → Reachable (toggleSelect id ts) lt
  | removeOne (id : String) {ts : List Timer} {lt : Int} :
      Reachable ts lt → Reachable (removeTimer id ts) lt
  | removeSel {ts : List Timer} {lt : Int} :
      Reachable ts lt → Reachable (removeSelected ts) lt
  | startSel (now : Int) {ts : List Timer} {lt : Int} :
      Reachable ts lt → Reachable (startSelected ts) now
  | startA (now : Int) {ts : List Timer} {lt : Int} :
      Reachable ts lt → Reachable (startAll ts) now
  | pauseSel {ts : List Timer} {lt : Int} :
      Reachable ts lt → Reachable (pauseSelected ts) lt
  | pauseA {ts : List Timer} {lt : Int} :
      Reachable ts lt → Reachable (pauseAll ts) lt
  | resetSel {ts : List Timer} {lt : Int} :
      Reachable ts lt → Reachable (resetSelected ts) lt
  | clickToggle (timer : Timer) {ts : List Timer} {lt : Int} :
      Reachable ts lt → Reachable (clickStartPause timer ts) lt
  | tick (now : Int) {ts : List Timer} {lt : Int} :
      Reachable ts lt → Reachable (tickTimers ts (now - lt)) now

/-- A sample timer used by concrete witnesses: one minute, fresh, paused. -/
def sampleTimer : Timer :=
  { id := "x", name := "a", durationMs := 60000, remainingMs := 60000,
    isRunning := false, isSelected := false }

/-- The same timer running, as produced by `startAll` on `[sampleTimer]`. -/
def sampleRunning : Timer :=
  { sampleTimer with isRunning := true }

/-- A timer at zero, paused, as a persisted snapshot entry. -/
def zeroPaused : Timer :=
  { id := "p", name := "p", durationMs := 5000, remainingMs := 0,
    isRunning := false, isSelected := false }

/-- A corrupt snapshot entry: zero remaining time yet flagged running. -/
def zeroRunning : Timer :=
  { id := "z", name := "z", durationMs := 5000, remainingMs := 0,
    isRunning := true, isSelected := false }

/-- The running timer of the spec's reconciliation examples: ten seconds
remaining. -/
def specTimer : Timer :=
  { id := "s", name := "s", durationMs := 10000, remainingMs := 10000,
    isRunning := true, isSelected := false }

/-- The sample timer selected, for start-selected witnesses. -/
def selTimer : Timer :=
  { sampleTimer with isSelected := true }

example : addTimer "a" 1 "x" [] = [sampleTimer] := by decide
example : startAll [sampleTimer] = [sampleRunning] := by decide
example : tickTimers [sampleRunning] (0 - 100) =
    [{ sampleRunning with remainingMs := 60100 }] := by decide

/-! ## Unfolding and branch lemmas -/

lemma loadAdjusted_eq (s : PersistedState) (now : Int) :
    loadAdjusted s now = s.timers.map (loadAdjustTimer (max 0 (now - s.lastUpdatedMs))) := rfl

lemma addTimer_eq (name : String) (m : Int) (id : String) (prev : List Timer) :
    addTimer name m id prev =
      if jsTrim name = "" then prev
      else prev ++ [{ id := id, name := jsTrim name, durationMs := max 1 m * 60 * 1000,
                      remainingMs := max 1 m * 60 * 1000, isRunning := false,
                      isSelected := false }] := rfl

lemma map_get?_some {f : Timer → Timer} {ts : List Timer} {i : Nat} {t : Timer}
    (h : ts[i]? = some t) : (ts.map f)[i]? = some (f t) := by
  simp [List.getElem?_map, h]

lemma tickTimers_get?_some {ts : List Timer} {i : Nat} {t : Timer} (delta : Int)
    (h : ts[i]? = some t) :
    (tickTimers ts delta)[i]? = some (tickTimer delta t) := map_get?_some h

lemma loadAdjusted_get?_some {s : PersistedState} {i : Nat} {t : Timer} (now : Int)
    (h : s.timers[i]? = some t) :
    (loadAdjusted s now)[i]? =
      some (loadAdjustTimer (max 0 (now - s.lastUpdatedMs)) t) := map_get?_some h

lemma startSelected_get?_some {ts : List Timer} {i : Nat} {t : Timer}
    (h : ts[i]? = some t) :
    (startSelected ts)[i]? =
      some (if t.isSelected = true ∧ 0 < t.remainingMs
            then { t with isRunning := true } else t) := map_get?_some h

lemma startAll_get?_some {ts : List Timer} {i : Nat} {t : Timer}
    (h : ts[i]? = some t) :
    (startAll ts)[i]? =
      some (if 0 < t.remainingMs then { t with isRunning := true } else t) :=
  map_get?_some h

lemma toggleRunning_get?_some {ts : List Timer} {i : Nat} {t : Timer} (id : String)
    (h : ts[i]? = some t) :
    (toggleRunning id ts)[i]? =
      some (if t.id = id then { t with isRunning := !t.isRunning } else t) :=
  map_get?_some h

lemma loadAdjustTimer_notRunning (e : Int) (t : Timer)
    (h : t.isRunning = false ∨ t.remainingMs ≤ 0) : loadAdjustTimer e t = t := by
  unfold loadAdjustTimer
  rw [if_pos h]

lemma loadAdjustTimer_running (e : Int) (t : Timer) (hrun : t.isRunning = true)
    (hr : 0 < t.remainingMs) :
    loadAdjustTimer e t =
      { t with remainingMs := max 0 (t.remainingMs - e),
               isRunning := decide (0 < max 0 (t.remainingMs - e)) } := by
  have h : ¬ (t.isRunning = false ∨ t.remainingMs ≤ 0) := by
    push_neg
    exact ⟨by simp [hrun], hr⟩
  unfold loadAdjustTimer
  rw [if_neg h]

lemma tickTimer_paused (delta : Int) (t : Timer) (h : t.isRunning = false) :
    tickTimer delta t = t := by
  unfold tickTimer
  rw [if_pos (Or.inl h), if_neg]
  simp [h]

lemma tickTimer_exhausted (delta : Int) (t : Timer) (hrun : t.isRunning = true)
    (hr : t.remainingMs ≤ 0) :
    tickTimer delta t = { t with remainingMs := 0, isRunning := false } := by
  unfold tickTimer
  rw [if_pos (Or.inr hr), if_pos ⟨hr, hrun⟩]

lemma tickTimer_running (delta : Int) (t : Timer) (hrun : t.isRunning = true)
    (hr : 0 < t.remainingMs) :
    tickTimer delta t =
      { t with remainingMs := max 0 (t.remainingMs - delta),
               isRunning := decide (0 < max 0 (t.remainingMs - delta)) } := by
  have h : ¬ (t.isRunning = false ∨ t.remainingMs ≤ 0) := by
    push_neg
    exact ⟨by simp [hrun], hr⟩
  unfold tickTimer
  rw [if_neg h]

lemma isRunning_eq_false_of_not {t : Timer} (h : ¬ t.isRunning = true) :
    t.isRunning = false := by
  revert h
  cases t.isRunning <;> simp

/-! ## Invariant helper lemmas -/

lemma timerInv_update (t : Timer) (r : Int) (b : Bool) (h0 : 0 ≤ r)
    (hd : r ≤ t.durationMs) :
    TimerInv { t with remainingMs := r, isRunning := b } := ⟨h0, hd⟩

lemma timerInv_set_run (t : Timer) (h : TimerInv t) (b : Bool) :
    TimerInv { t with isRunning := b } := h

lemma collectionInv_map {f : Timer → Timer} {ts : List Timer}
    (h : CollectionInv ts) (hf : ∀ t, TimerInv t → TimerInv (f t)) :
    CollectionInv (ts.map f) := by
  intro t' ht'
  obtain ⟨a, ha, rfl⟩ := List.mem_map.mp ht'
  exact hf a (h a ha)

lemma tickTimer_inv (delta : Int) (hd : 0 ≤ delta) (t : Timer) (ht : TimerInv t) :
    TimerInv (tickTimer delta t) := by
  by_cases hrun : t.isRunning = true
  · by_cases hr : 0 < t.remainingMs
    · rw [tickTimer_running delta t hrun hr]
      refine timerInv_update t _ _ (le_max_left 0 _) (max_le ?_ ?_)
      · exact le_trans ht.1 ht.2
      · exact le_trans (sub_le_self _ hd) ht.2
    · rw [tickTimer_exhausted delta t hrun (not_lt.mp hr)]
      exact timerInv_update t 0 false le_rfl (le_trans ht.1 ht.2)
  · rw [tickTimer_paused delta t (isRunning_eq_false_of_not hrun)]
    exact ht

lemma loadAdjustTimer_inv (e : Int) (he : 0 ≤ e) (t : Timer) (ht : TimerInv t) :
    TimerInv (loadAdjustTimer e t) := by
  by_cases hrun : t.isRunning = true
  · by_cases hr : 0 < t.remainingMs
    · rw [loadAdjustTimer_running e t hrun hr]
      refine timerInv_update t _ _ (le_max_left 0 _) (max_le ?_ ?_)
      · exact le_trans ht.1 ht.2
      · exact le_trans (sub_le_self _ he) ht.2
    · rw [loadAdjustTimer_notRunning e t (Or.inr (not_lt.mp hr))]
      exact ht
  · rw [loadAdjustTimer_notRunning e t (Or.inl (isRunning_eq_false_of_not hrun))]
    exact ht

lemma loadAdjustTimer_zero (t : Timer) : loadAdjustTimer 0 t = t := by
  by_cases hrun : t.isRunning = true
  · by_cases hr : 0 < t.remainingMs
    · rw [loadAdjustTimer_running 0 t hrun hr]
      cases t with
      | mk id name d r run sel =>
        simp only [] at hr ⊢
        simp [sub_zero, max_eq_right hr.le, hr, ← hrun]
    · exact loadAdjustTimer_notRunning 0 t (Or.inr (not_lt.mp hr))
  · exact loadAdjustTimer_notRunning 0 t (Or.inl (isRunning_eq_false_of_not hrun))

lemma map_loadAdjustTimer_zero (ts : List Timer) :
    ts.map (loadAdjustTimer 0) = ts := by
  induction ts with
  | nil => rfl
  | cons t ts ih => simp [loadAdjustTimer_zero, ih]

/-! ## Claim theorems -/

/-- C7: persisting the collection and then loading the resulting snapshot at
the very instant it was written (zero elapsed wall-clock time) reproduces an
identical collection, for every collection and every instant. -/
theorem persist_load_roundtrip (ts : List Timer) (now : Int) :
    loadAdjusted (persistPayload ts now) now = ts := by
  have h : loadAdjusted (persistPayload ts now) now
      = ts.map (loadAdjustTimer (max 0 (now - now))) := rfl
  rw [h, sub_self]
  have hmax : max (0:Int) 0 = 0 := max_self 0
  rw [hmax]
  exact map_loadAdjustTimer_zero ts

/-- C4: a tick with elapsed `delta` maps every running timer with positive
remaining time to `max 0 (remainingMs - delta)` remaining, marks it not
running exactly when the new remaining time is zero, and leaves every
not-running timer entirely unchanged. -/
theorem tick_spec :
    (∀ (ts : List Timer) (delta : Int) (i : Nat) (t : Timer),
        ts[i]? = some t → t.isRunning = true → 0 < t.remainingMs →
        (tickTimers ts delta)[i]? =
          some { t with remainingMs := max 0 (t.remainingMs - delta),
                        isRunning := decide (0 < max 0 (t.remainingMs - delta)) }) ∧
    (∀ (ts : List Timer) (delta : Int) (i : Nat) (t t' : Timer),
        ts[i]? = some t → t.isRunning = true → 0 < t.remainingMs →
        (tickTimers ts delta)[i]? = some t' →
        (t'.isRunning = false ↔ t'.remainingMs = 0)) ∧
    (∀ (ts : List Timer) (delta : Int) (i : Nat) (t : Timer),
        ts[i]? = some t → t.isRunning = false →
        (tickTimers ts delta)[i]? = some t) := by
  refine ⟨?_, ?_, ?_⟩
  · intro ts delta i t h hrun hr
    have := tickTimers_get?_some delta h
    rwa [tickTimer_running delta t hrun hr] at this
  · intro ts delta i t t' h hrun hr h'
    have hm := tickTimers_get?_some delta h
    rw [tickTimer_running delta t hrun hr] at hm
    rw [hm] at h'
    have ht' := Option.some.inj h'
    subst ht'
    show decide (0 < max 0 (t.remainingMs - delta)) = false ↔
      max 0 (t.remainingMs - delta) = 0
    have hM : (0:Int) ≤ max 0 (t.remainingMs - delta) := le_max_left 0 _
    simp only [decide_eq_false_iff_not, not_lt]
    exact ⟨fun h => le_antisymm h hM, fun h => h.le⟩
  · intro ts delta i t h hrun
    have := tickTimers_get?_some delta h
    rwa [tickTimer_paused delta t hrun] at this

/-- C4 witness: the tick theorem applied to a concrete running timer. -/
theorem tick_spec_witness :
    (tickTimers [sampleRunning] 1000)[0]? =
      some { sampleRunning with
             remainingMs := max 0 (sampleRunning.remainingMs - 1000),
             isRunning := decide (0 < max 0 (sampleRunning.remainingMs - 1000)) } :=
  tick_spec.1 [sampleRunning] 1000 0 sampleRunning (by decide) (by decide) (by decide)

/-- C8: adding with a name whose trimmed value is non-empty appends exactly
one timer with `durationMs = remainingMs = max 1 m * 60 * 1000`, not
running, carrying the trimmed name, and leaves the existing timers
unchanged; adding with a name that trims to empty is a silent no-op. -/
theorem addTimer_spec :
    (∀ (name : String) (m : Int) (id : String) (ts : List Timer),
        jsTrim name ≠ "" →
        addTimer name m id ts =
          ts ++ [{ id := id, name := jsTrim name, durationMs := max 1 m * 60 * 1000,
                   remainingMs := max 1 m * 60 * 1000, isRunning := false,
                   isSelected := false }]) ∧
    (∀ (name : String) (m : Int) (id : String) (ts : List Timer),
        jsTrim name = "" → addTimer name m id ts = ts) := by
  constructor
  · intro name m id ts h
    rw [addTimer_eq, if_neg h]
  · intro name m id ts h
    rw [addTimer_eq, if_pos h]

/-- C8 witness: concrete creation with a padded name, and a whitespace-only
rejection. -/
theorem addTimer_spec_witness :
    addTimer " bob " 5 "id1" [sampleTimer] =
      [sampleTimer] ++
        [{ id := "id1", name := jsTrim " bob ", durationMs := max 1 5 * 60 * 1000,
           remainingMs := max 1 5 * 60 * 1000, isRunning := false,
           isSelected := false }] ∧
    addTimer "   " 5 "id1" [sampleTimer] = [sampleTimer] :=
  ⟨addTimer_spec.1 " bob " 5 "id1" [sampleTimer] (by decide),
   addTimer_spec.2 "   " 5 "id1" [sampleTimer] (by decide)⟩

/-- C9 counterexample: a missing snapshot leaves the store empty but is NOT
logged (the load effect returns early before the catch), contradicting the
claim that the failure is logged for every missing or unparseable
snapshot. -/
theorem load_missing_unlogged_cex :
    (loadEffect ReadOutcome.missing 0).1 = [] ∧
    (loadEffect ReadOutcome.missing 0).2 = false := by decide

/-- C9 (amended): for every missing or unparseable snapshot the load effect
returns normally (never throws) with an empty timer collection; a parse
failure is logged, while a missing snapshot is skipped silently. -/
theorem load_error_handling :
    (∀ now : Int, (loadEffect ReadOutcome.missing now).1 = [] ∧
        (loadEffect ReadOutcome.missing now).2 = false) ∧
    (∀ now : Int, (loadEffect ReadOutcome.unparseable now).1 = [] ∧
        (loadEffect ReadOutcome.unparseable now).2 = true) :=
  ⟨fun _ => ⟨rfl, rfl⟩, fun _ => ⟨rfl, rfl⟩⟩

/-- C1 counterexample: the tick callback does not clamp its delta, so a tick
whose current instant lies before the tick baseline (the wall clock stepped
backwards) pushes a running timer's `remainingMs` above `durationMs`,
breaking the claimed invariant even though the starting state satisfies
it. -/
theorem invariant_tick_cex :
    CollectionInv [sampleRunning] ∧
    ¬ CollectionInv (tickTimers [sampleRunning] (0 - 100)) := by decide

/-- C1 (amended): `0 ≤ remainingMs ≤ durationMs` is preserved by create,
start (selected, all, and the per-item toggle), pause, reset, and by load at
every current instant, and by tick at every current instant not earlier
than the tick baseline. -/
theorem invariant_preserved :
    (∀ (name : String) (m : Int) (id : String) (ts : List Timer),
        CollectionInv ts → CollectionInv (addTimer name m id ts)) ∧
    (∀ (ts : List Timer) (lastTick now : Int),
        CollectionInv ts → lastTick ≤ now →
        CollectionInv (tickTimers ts (now - lastTick))) ∧
    (∀ ts : List Timer, CollectionInv ts → CollectionInv (startSelected ts)) ∧
    (∀ ts : List Timer, CollectionInv ts → CollectionInv (startAll ts)) ∧
    (∀ (timer : Timer) (ts : List Timer),
        CollectionInv ts → CollectionInv (clickStartPause timer ts)) ∧
    (∀ ts : List Timer, CollectionInv ts → CollectionInv (pauseSelected ts)) ∧
    (∀ ts : List Timer, CollectionInv ts → CollectionInv (pauseAll ts)) ∧
    (∀ ts : List Timer, CollectionInv ts → CollectionInv (resetSelected ts)) ∧
    (∀ (s : PersistedState) (now : Int),
        CollectionInv s.timers → CollectionInv (loadAdjusted s now)) := by
  refine ⟨?_, ?_, ?_, ?_, ?_, ?_, ?_, ?_, ?_⟩
  · intro name m id ts h
    rw [addTimer_eq]
    split
    · exact h
    · intro t' ht'
      rcases List.mem_append.mp ht' with hin | hin
      · exact h t' hin
      · rcases List.mem_singleton.mp hin with rfl
        have h1 : (1:Int) ≤ max 1 m := le_max_left 1 m
        have hpos : (0:Int) ≤ max 1 m * 60 * 1000 := by positivity
        exact ⟨hpos, le_rfl⟩
  · intro ts lastTick now h hle
    exact collectionInv_map h (tickTimer_inv _ (sub_nonneg.mpr hle))
  · intro ts h
    refine collectionInv_map h fun t ht => ?_
    by_cases hc : t.isSelected = true ∧ 0 < t.remainingMs
    · rw [if_pos hc]; exact timerInv_set_run t ht true
    · rw [if_neg hc]; exact ht
  · intro ts h
    refine collectionInv_map h fun t ht => ?_
    by_cases hc : 0 < t.remainingMs
    · rw [if_pos hc]; exact timerInv_set_run t ht true
    · rw [if_neg hc]; exact ht
  · intro timer ts h
    unfold clickStartPause
    split
    · exact h
    · refine collectionInv_map h fun t ht => ?_
      by_cases hc : t.id = timer.id
      · rw [if_pos hc]; exact timerInv_set_run t ht _
      · rw [if_neg hc]; exact ht
  · intro ts h
    refine collectionInv_map h fun t ht => ?_
    by_cases hc : t.isSelected = true
    · rw [if_pos hc]; exact timerInv_set_run t ht false
    · rw [if_neg hc]; exact ht
  · intro ts h
    exact collectionInv_map h fun t ht => timerInv_set_run t ht false
  · intro ts h
    refine collectionInv_map h fun t ht => ?_
    by_cases hc : t.isSelected = true
    · rw [if_pos hc]
      exact timerInv_update t t.durationMs false (le_trans ht.1 ht.2) le_rfl
    · rw [if_neg hc]; exact ht
  · intro s now h
    rw [loadAdjusted_eq]
    exact collectionInv_map h (loadAdjustTimer_inv _ (le_max_left 0 _))

/-- C1 witness: the amended invariant theorem applied to concrete states. -/
theorem invariant_preserved_witness :
    CollectionInv (addTimer "a" 1 "x" []) ∧
    CollectionInv (tickTimers [sampleRunning] (100 - 40)) :=
  ⟨invariant_preserved.1 "a" 1 "x" [] (by decide),
   invariant_preserved.2.1 [sampleRunning] 40 100 (by decide) (by decide)⟩

/-- C2 counterexample: load restores a snapshot timer flagged running with
`remainingMs = 0` unchanged, so immediately after load that timer has
`remainingMs == 0` yet `isRunning == true`, contradicting the claim for
arbitrary snapshot flags. -/
theorem load_zero_running_cex :
    loadAdjusted { timers := [zeroRunning], lastUpdatedMs := 0 } 0 = [zeroRunning] ∧
    zeroRunning.remainingMs = 0 ∧ zeroRunning.isRunning = true := by decide

/-- C2 (amended): immediately after any tick, `remainingMs == 0` implies
`isRunning == false` regardless of the pre-state's flags; after load the
same implication holds provided every snapshot timer already satisfies it
(a snapshot timer flagged running with `remainingMs ≤ 0` is restored
unchanged). -/
theorem zero_implies_paused :
    (∀ (ts : List Timer) (delta : Int), ∀ t' ∈ tickTimers ts delta,
        t'.remainingMs = 0 → t'.isRunning = false) ∧
    (∀ (s : PersistedState) (now : Int),
        (∀ t ∈ s.timers, t.remainingMs = 0 → t.isRunning = false) →
        ∀ t' ∈ loadAdjusted s now, t'.remainingMs = 0 → t'.isRunning = false) := by
  constructor
  · intro ts delta t' ht'
    obtain ⟨a, ha, rfl⟩ := List.mem_map.mp ht'
    by_cases hrun : a.isRunning = true
    · by_cases hr : 0 < a.remainingMs
      · rw [tickTimer_running delta a hrun hr]
        show max 0 (a.remainingMs - delta) = 0 →
          decide (0 < max 0 (a.remainingMs - delta)) = false
        intro h0
        rw [h0]
        decide
      · rw [tickTimer_exhausted delta a hrun (not_lt.mp hr)]
        intro _
        rfl
    · rw [tickTimer_paused delta a (isRunning_eq_false_of_not hrun)]
      intro _
      exact isRunning_eq_false_of_not hrun
  · intro s now hs t' ht'
    rw [loadAdjusted_eq] at ht'
    obtain ⟨a, ha, rfl⟩ := List.mem_map.mp ht'
    by_cases hrun : a.isRunning = true
    · by_cases hr : 0 < a.remainingMs
      · rw [loadAdjustTimer_running _ a hrun hr]
        show max 0 (a.remainingMs - max 0 (now - s.lastUpdatedMs)) = 0 →
          decide (0 < max 0 (a.remainingMs - max 0 (now - s.lastUpdatedMs))) = false
        intro h0
        rw [h0]
        decide
      · rw [loadAdjustTimer_notRunning _ a (Or.inr (not_lt.mp hr))]
        exact hs a ha
    · rw [loadAdjustTimer_notRunning _ a (Or.inl (isRunning_eq_false_of_not hrun))]
      exact hs a ha

/-- C2 witness: the zero-implies-paused theorem applied to a running timer
exhausted by a tick, and to a loaded snapshot holding a zeroed paused
timer. -/
theorem zero_implies_paused_witness :
    ({ zeroRunning with remainingMs := 0, isRunning := false } : Timer).isRunning = false ∧
    zeroPaused.isRunning = false :=
  ⟨zero_implies_paused.1 [zeroRunning] 5
      { zeroRunning with remainingMs := 0, isRunning := false } (by decide) (by decide),
   zero_implies_paused.2 { timers := [zeroPaused], lastUpdatedMs := 0 } 7 (by decide)
      zeroPaused (by decide) (by decide)⟩

/-- C3 counterexample: the claim's reconciliation formula
`max 0 (remainingMs - (now - lastUpdatedMs))` disagrees with the code when
the load instant lies before `lastUpdatedMs`: the code clamps the elapsed
time at zero and restores the timer unchanged (10000 ms), while the claimed
formula yields 11000 ms. -/
theorem load_formula_cex :
    (loadAdjusted { timers := [specTimer], lastUpdatedMs := 1000 } 0)[0]? = some specTimer ∧
    specTimer.isRunning = true ∧ 0 < specTimer.remainingMs ∧
    specTimer.remainingMs ≠ max 0 (specTimer.remainingMs - ((0:Int) - 1000)) := by decide

/-- C3 (amended): load maps every snapshot timer flagged running with
positive remaining time to `max 0 (remainingMs - max 0 (now - lastUpdatedMs))`
remaining (elapsed time clamped at zero) with `isRunning` exactly when the
new remaining time is positive, restores every timer not flagged running
unchanged, and in particular yields 6000 ms still running when the spec's
10-second timer is loaded 4 s after persisting, and 0 ms not running when
loaded 15 s after. -/
theorem load_reconciliation :
    (∀ (s : PersistedState) (now : Int) (i : Nat) (t : Timer),
        s.timers[i]? = some t → t.isRunning = true → 0 < t.remainingMs →
        (loadAdjusted s now)[i]? =
          some { t with
                 remainingMs := max 0 (t.remainingMs - max 0 (now - s.lastUpdatedMs)),
                 isRunning :=
                   decide (0 < max 0 (t.remainingMs - max 0 (now - s.lastUpdatedMs))) }) ∧
    (∀ (s : PersistedState) (now : Int) (i : Nat) (t : Timer),
        s.timers[i]? = some t → t.isRunning = false →
        (loadAdjusted s now)[i]? = some t) ∧
    (∀ T : Int, loadAdjusted { timers := [specTimer], lastUpdatedMs := T } (T + 4000) =
        [{ specTimer with remainingMs := 6000 }]) ∧
    (∀ T : Int, loadAdjusted { timers := [specTimer], lastUpdatedMs := T } (T + 15000) =
        [{ specTimer with remainingMs := 0, isRunning := false }]) := by
  refine ⟨?_, ?_, ?_, ?_⟩
  · intro s now i t h hrun hr
    have := loadAdjusted_get?_some now h
    rwa [loadAdjustTimer_running _ t hrun hr] at this
  · intro s now i t h hrun
    have := loadAdjusted_get?_some now h
    rwa [loadAdjustTimer_notRunning _ t (Or.inl hrun)] at this
  · intro T
    have h : loadAdjusted { timers := [specTimer], lastUpdatedMs := T } (T + 4000)
        = [specTimer].map (loadAdjustTimer (max 0 (T + 4000 - T))) := rfl
    rw [h, show T + 4000 - T = (4000:Int) from by ring]
    decide
  · intro T
    have h : loadAdjusted { timers := [specTimer], lastUpdatedMs := T } (T + 15000)
        = [specTimer].map (loadAdjustTimer (max 0 (T + 15000 - T))) := rfl
    rw [h, show T + 15000 - T = (15000:Int) from by ring]
    decide

/-- C3 witness: the amended reconciliation theorem applied to a concrete
snapshot, both for a running and for a paused timer. -/
theorem load_reconciliation_witness :
    (loadAdjusted { timers := [specTimer], lastUpdatedMs := 0 } 4000)[0]? =
      some { specTimer with
             remainingMs := max 0 (specTimer.remainingMs - max 0 ((4000:Int) - 0)),
             isRunning :=
               decide (0 < max 0 (specTimer.remainingMs - max 0 ((4000:Int) - 0))) } ∧
    (loadAdjusted { timers := [zeroPaused], lastUpdatedMs := 0 } 4000)[0]? =
      some zeroPaused :=
  ⟨load_reconciliation.1 { timers := [specTimer], lastUpdatedMs := 0 } 4000 0 specTimer
      (by decide) (by decide) (by decide),
   load_reconciliation.2.1 { timers := [zeroPaused], lastUpdatedMs := 0 } 4000 0 zeroPaused
      (by decide) (by decide)⟩

/-- C5: every start operation (start selected, start all, and the per-item
toggle, whose button is disabled at zero remaining time) sets
`isRunning = true` only for targeted timers with positive remaining time;
timers at zero or not targeted are left unchanged, so a timer at zero
remains paused. -/
theorem start_spec :
    (∀ (ts : List Timer) (i : Nat) (t : Timer), ts[i]? = some t →
        t.isSelected = true → 0 < t.remainingMs →
        (startSelected ts)[i]? = some { t with isRunning := true }) ∧
    (∀ (ts : List Timer) (i : Nat) (t : Timer), ts[i]? = some t →
        t.remainingMs = 0 → (startSelected ts)[i]? = some t) ∧
    (∀ (ts : List Timer) (i : Nat) (t : Timer), ts[i]? = some t →
        t.isSelected = false → (startSelected ts)[i]? = some t) ∧
    (∀ (ts : List Timer) (i : Nat) (t : Timer), ts[i]? = some t →
        0 < t.remainingMs → (startAll ts)[i]? = some { t with isRunning := true }) ∧
    (∀ (ts : List Timer) (i : Nat) (t : Timer), ts[i]? = some t →
        t.remainingMs = 0 → (startAll ts)[i]? = some t) ∧
    (∀ (ts : List Timer) (i : Nat) (t : Timer), ts[i]? = some t →
        t.isRunning = false → 0 < t.remainingMs →
        (clickStartPause t ts)[i]? = some { t with isRunning := true }) ∧
    (∀ (ts : List Timer) (t : Timer), t.remainingMs = 0 →
        clickStartPause t ts = ts) := by
  refine ⟨?_, ?_, ?_, ?_, ?_, ?_, ?_⟩
  · intro ts i t h hsel hr
    have hm := startSelected_get?_some h
    rw [if_pos ⟨hsel, hr⟩] at hm
    exact hm
  · intro ts i t h hr0
    have hm := startSelected_get?_some h
    rw [if_neg (by simp [hr0])] at hm
    exact hm
  · intro ts i t h hsel
    have hm := startSelected_get?_some h
    rw [if_neg (by simp [hsel])] at hm
    exact hm
  · intro ts i t h hr
    have hm := startAll_get?_some h
    rw [if_pos hr] at hm
    exact hm
  · intro ts i t h hr0
    have hm := startAll_get?_some h
    rw [if_neg (by simp [hr0])] at hm
    exact hm
  · intro ts i t h hrun hr
    unfold clickStartPause
    rw [if_neg (not_le.mpr hr)]
    have hm := toggleRunning_get?_some t.id h
    rw [if_pos rfl] at hm
    rw [hrun] at hm
    simp only [Bool.not_false] at hm
    exact hm
  · intro ts t hr0
    unfold clickStartPause
    rw [if_pos hr0.le]

/-- C5 witness: starting a selected fresh timer, and the disabled per-item
click on a timer at zero. -/
theorem start_spec_witness :
    (startSelected [selTimer])[0]? = some { selTimer with isRunning := true } ∧
    clickStartPause zeroPaused [zeroPaused] = [zeroPaused] :=
  ⟨start_spec.1 [selTimer] 0 selTimer (by decide) (by decide) (by decide),
   start_spec.2.2.2.2.2.2 [zeroPaused] zeroPaused (by decide)⟩

/-- C6 counterexample: from a reachable state (create one timer, start all
at instant 100) a tick whose current instant 0 lies before the baseline
applies a negative delta and increases the running timer's `remainingMs`
from 60000 to 60100, contradicting monotonicity for arbitrary current
instants. -/
theorem tick_monotone_cex :
    Reachable [sampleRunning] 100 ∧
    sampleRunning.isRunning = true ∧
    (tickTimers [sampleRunning] (0 - 100))[0]? =
      some { sampleRunning with remainingMs := 60100 } ∧
    sampleRunning.remainingMs < 60100 := by
  refine ⟨?_, by decide, by decide, by decide⟩
  have h1 : Reachable (addTimer "a" 1 "x" []) 0 :=
    Reachable.create "a" 1 "x" (Reachable.init 0)
  have h2 : Reachable (startAll (addTimer "a" 1 "x" [])) 100 := Reachable.startA 100 h1
  have he : startAll (addTimer "a" 1 "x" []) = [sampleRunning] := by decide
  rwa [he] at h2

/-- C6 (amended): for every state whose timers have nonnegative remaining
time, a tick at a current instant not earlier than the tick baseline never
increases a running timer's `remainingMs` and never drives it below zero,
and load never does so at any current instant. -/
theorem remaining_monotone :
    (∀ (ts : List Timer) (lastTick now : Int) (i : Nat) (t t' : Timer),
        lastTick ≤ now → ts[i]? = some t →
        (tickTimers ts (now - lastTick))[i]? = some t' →
        t.isRunning = true → 0 ≤ t.remainingMs →
        t'.remainingMs ≤ t.remainingMs ∧ 0 ≤ t'.remainingMs) ∧
    (∀ (s : PersistedState) (now : Int) (i : Nat) (t t' : Timer),
        s.timers[i]? = some t → (loadAdjusted s now)[i]? = some t' →
        t.isRunning = true → 0 ≤ t.remainingMs →
        t'.remainingMs ≤ t.remainingMs ∧ 0 ≤ t'.remainingMs) := by
  constructor
  · intro ts lastTick now i t t' hle h h' hrun hr0
    rw [tickTimers_get?_some (now - lastTick) h] at h'
    have ht' := Option.some.inj h'
    subst ht'
    by_cases hr : 0 < t.remainingMs
    · rw [tickTimer_running _ t hrun hr]
      exact ⟨max_le hr0 (sub_le_self _ (sub_nonneg.mpr hle)), le_max_left 0 _⟩
    · rw [tickTimer_exhausted _ t hrun (not_lt.mp hr)]
      exact ⟨hr0, le_rfl⟩
  · intro s now i t t' h h' hrun hr0
    rw [loadAdjusted_get?_some now h] at h'
    have ht' := Option.some.inj h'
    subst ht'
    by_cases hr : 0 < t.remainingMs
    · rw [loadAdjustTimer_running _ t hrun hr]
      exact ⟨max_le hr0 (sub_le_self _ (le_max_left 0 _)), le_max_left 0 _⟩
    · rw [loadAdjustTimer_notRunning _ t (Or.inr (not_lt.mp hr))]
      exact ⟨le_rfl, hr0⟩

/-- C6 witness: a forward tick of one second on a running one-minute
timer. -/
theorem remaining_monotone_witness :
    ({ sampleRunning with remainingMs := 59000 } : Timer).remainingMs ≤
      sampleRunning.remainingMs ∧
    (0:Int) ≤ ({ sampleRunning with remainingMs := 59000 } : Timer).remainingMs :=
  remaining_monotone.1 [sampleRunning] 0 1000 0 sampleRunning
    { sampleRunning with remainingMs := 59000 }
    (by decide) (by decide) (by decide) (by decide) (by decide)

lemma map_map_keyFields {f : Timer → Timer} (hf : ∀ t, keyFields (f t) = keyFields t)
    (ts : List Timer) : (ts.map f).map keyFields = ts.map keyFields := by
  induction ts with
  | nil => rfl
  | cons t ts ih => simp [hf, ih]

/-- C10: create either no-ops or appends the new timer at the end; remove
(single and bulk) keeps the retained timers in their relative order; and every
other operation (toggle selection, start, pause, reset, per-item toggle,
tick) preserves order, length and each timer's id, name and durationMs. -/
theorem frame_order_preservation :
    (∀ (name : String) (m : Int) (id : String) (ts : List Timer),
        addTimer name m id ts = ts ∨
        ∃ nt : Timer, addTimer name m id ts = ts ++ [nt]) ∧
    (∀ (id : String) (ts : List Timer), List.Sublist (removeTimer id ts) ts) ∧
    (∀ ts : List Timer, List.Sublist (removeSelected ts) ts) ∧
    (∀ (id : String) (ts : List Timer),
        (toggleSelect id ts).map keyFields = ts.map keyFields) ∧
    (∀ ts : List Timer, (startSelected ts).map keyFields = ts.map keyFields) ∧
    (∀ ts : List Timer, (startAll ts).map keyFields = ts.map keyFields) ∧
    (∀ ts : List Timer, (pauseSelected ts).map keyFields = ts.map keyFields) ∧
    (∀ ts : List Timer, (pauseAll ts).map keyFields = ts.map keyFields) ∧
    (∀ ts : List Timer, (resetSelected ts).map keyFields = ts.map keyFields) ∧
    (∀ (timer : Timer) (ts : List Timer),
        (clickStartPause timer ts).map keyFields = ts.map keyFields) ∧
    (∀ (ts : List Timer) (delta : Int),
        (tickTimers ts delta).map keyFields = ts.map keyFields) := by
  refine ⟨?_, ?_, ?_, ?_, ?_, ?_, ?_, ?_, ?_, ?_, ?_⟩
  · intro name m id ts
    rw [addTimer_eq]
    split
    · exact Or.inl rfl
    · exact Or.inr ⟨_, rfl⟩
  · intro id ts
    exact List.filter_sublist ts
  · intro ts
    exact List.filter_sublist ts
  · intro id ts
    refine map_map_keyFields (fun t => ?_) ts
    by_cases hc : t.id = id <;> simp [keyFields, hc]
  · intro ts
    refine map_map_keyFields (fun t => ?_) ts
    by_cases hc : t.isSelected = true ∧ 0 < t.remainingMs <;> simp [keyFields, hc]
  · intro ts
    refine map_map_keyFields (fun t => ?_) ts
    by_cases hc : 0 < t.remainingMs <;> simp [keyFields, hc]
  · intro ts
    refine map_map_keyFields (fun t => ?_) ts
    by_cases hc : t.isSelected = true <;> simp [keyFields, hc]
  · intro ts
    exact map_map_keyFields (f := fun t => { t with isRunning := false })
      (fun t => rfl) ts
  · intro ts
    refine map_map_keyFields (fun t => ?_) ts
    by_cases hc : t.isSelected = true <;> simp [keyFields, hc]
  · intro timer ts
    unfold clickStartPause
    split
    · rfl
    · refine map_map_keyFields (fun t => ?_) ts
      by_cases hc : t.id = timer.id <;> simp [keyFields, hc]
  · intro ts delta
    refine map_map_keyFields (fun t => ?_) ts
    by_cases hrun : t.isRunning = true
    · by_cases hr : 0 < t.remainingMs
      · rw [tickTimer_running _ t hrun hr]
        rfl
      · rw [tickTimer_exhausted _ t hrun (not_lt.mp hr)]
        rfl
    · rw [tickTimer_paused _ t (isRunning_eq_false_of_not hrun)]

end BreakTimer
